import Mathlib

/-!
Verification of the fetch-and-fallback resolver in getpdb.py.

The Python program retrieves molecular-structure files from a fixed registry of
online databases and writes each payload to a local file.  The development below
is a shallow embedding of that program: network, decompression, JSON access and
filesystem failures are supplied by an explicit oracle (the World structure),
and each function of the source is translated into a Lean function over that
oracle.  Side effects (HTTP requests issued, file operations performed, log
messages emitted) are made explicit as event traces in the results.
-/

/- ---------------------------------------------------------------------------
String helpers mirroring the Python string methods used by the source
(str.lower, str.upper, str.split, os.path.join, sequential print calls).
They are written over the character list so that the kernel can evaluate them.
--------------------------------------------------------------------------- -/

/-- Python str.lower (ASCII case mapping, as used by the source on type and
host tags). -/
def pyLower (s : String) : String := ⟨s.data.map Char.toLower⟩

/-- Python str.upper (ASCII case mapping, as used by the source on
identifiers). -/
def pyUpper (s : String) : String := ⟨s.data.map Char.toUpper⟩

/-- Helper for pySplitLines: split a character list at newline characters,
carrying the segment accumulated so far. -/
def splitNlAux : List Char → String → List String
  | [], acc => [acc]
  | c :: cs, acc => if c = '\n' then acc :: splitNlAux cs "" else splitNlAux cs (acc.push c)

/-- Python str.split with separator a single newline, as in
response.text.split of the source. -/
def pySplitLines (s : String) : List String := splitNlAux s.data ""

/-- Content produced by the write loop of getpdb: each line is printed followed
by exactly one newline (print appends a newline to every line). -/
def writeLinesContent : List String → String
  | [] => ""
  | l :: ls => l ++ "\n" ++ writeLinesContent ls

/-- os.path.join for the two-argument use in the source: the second component
wins when absolute, otherwise the components are joined with a separator. -/
def joinPath (path fname : String) : String :=
  if fname.data.head? = some '/' then fname
  else if path.data.getLast? = some '/' then path ++ fname
  else path ++ "/" ++ fname

/- ---------------------------------------------------------------------------
Data model.
--------------------------------------------------------------------------- -/

/-- One HTTP GET request issued by the program: the registry host it was issued
for, the URL, and the TLS-verification flag passed to requests.get. -/
structure Request where
  host : String
  url : String
  verify : Bool
deriving DecidableEq, Repr

/-- An HTTP response as seen by the source: status code, raw body bytes
(response.content) and decoded text (response.text). -/
structure Response where
  status : Nat
  content : List Nat
  text : String
deriving DecidableEq, Repr

/-- The first entry of the alphafold prediction JSON document, with the three
URL fields read by the source. -/
structure AlphaMeta where
  cifUrl : String
  bcifUrl : String
  pdbUrl : String
deriving DecidableEq, Repr

/-- The distinct exception sources of one host attempt in the Python code:
transport errors from requests.get, raise_for_status on a non-2xx response,
gzip/JSON decode failures, the explicit invalid-file-type raise of the
alphafold branch, and the explicit unknown-host raise. -/
inductive FetchError where
  | network (msg : String)
  | httpStatus (status : Nat)
  | decode (msg : String)
  | invalidFileType (t : String)
  | unknownHost (h : String)
deriving DecidableEq, Repr

/-- Log messages emitted by getpdb: the capability-skip warning, the warning
logged when a host attempt raises, the could-not-fetch error, and the error
logged when the write phase raises. -/
inductive LogEntry where
  | warnSkip (host ftype : String)
  | warnFetch (e : FetchError)
  | errorCouldNotFetch (code ftype : String)
  | errorWrite (msg : String)
deriving DecidableEq, Repr

/-- Filesystem operations performed by the write phase of getpdb, in order:
os.makedirs on the output directory, open of the output file in mode w
(truncating), one write per payload line, and (never emitted by this program,
which lets the handle leak to the runtime) an explicit close. -/
inductive FileEvent where
  | makedirs (path : String)
  | openTrunc (path : String)
  | writeLine (line : String)
  | close
deriving DecidableEq, Repr

/-- The external oracle: HTTP transport, gzip decompression + ascii decode,
JSON parsing of the alphafold metadata, and the possible OS failures of
os.makedirs and open.  Each field models one external collaborator of the
source; an error value stands for the corresponding Python exception. -/
structure World where
  get : String → Bool → Except String Response
  gunzipAscii : List Nat → Except String String
  jsonFirst : Response → Except String AlphaMeta
  makedirsErr : String → Option String
  openErr : String → Option String

/-- Result of one host attempt: the returned data or the raised exception,
the list of HTTP requests issued during the attempt, and the byte strings
passed to gzip.decompress during the attempt. -/
structure HostResult where
  result : Except FetchError (List String)
  requests : List Request
  gunzips : List (List Nat)
deriving Repr

/-- Observable outcome of one getpdb call: requests issued, file operations
performed, the file written (name and final content) if any, and the log
messages emitted. -/
structure Outcome where
  requests : List Request
  fileEvents : List FileEvent
  written : Option (String × String)
  logs : List LogEntry
deriving Repr

/- ---------------------------------------------------------------------------
Constants of getpdb.py (lines 31-41).
--------------------------------------------------------------------------- -/

/-- Default file type for short identifiers (getpdb.py line 32). -/
def FILE_DEFAULT_SMALL : String := "sdf"

/-- Default file type for long identifiers (getpdb.py line 33). -/
def FILE_DEFAULT_LARGE : String := "cif"

/-- Supported databases and file types (getpdb.py lines 36-41); a Python dict
preserves insertion order, so the key order below is the iteration order. -/
def DATABASE_HOSTS : List (String × List String) :=
  [("rcsb", ["pdb", "cif", "bcif", "xml"]),
   ("rcsb-ligand", ["cif", "sdf", "mol2"]),
   ("pubchem", ["sdf", "json", "xml", "asnt"]),
   ("alphafold", ["cif", "bcif", "pdb"])]

/-- DATABASE_HOSTS.get(host): the capability list of a registry host. -/
def hostTypes (host : String) : List String :=
  ((DATABASE_HOSTS.find? (fun p => p.fst = host)).map Prod.snd).getD []

/-- The download URL of the rcsb branch (getpdb.py line 64). -/
def RCSB_URL (code ftype : String) : String :=
  "https://files.rcsb.org/download/" ++ pyUpper code ++ "." ++ pyLower ftype ++ ".gz"

/-- The download URL of the rcsb-ligand branch (getpdb.py lines 74-77): sdf and
mol2 requests get the idealized-structure variant. -/
def LIGAND_URL (code ftype : String) : String :=
  if pyLower ftype ∈ ["sdf", "mol2"] then
    "https://files.rcsb.org/ligands/download/" ++ pyUpper code ++ "_ideal." ++ pyLower ftype
  else
    "https://files.rcsb.org/ligands/download/" ++ pyUpper code ++ "." ++ pyLower ftype

/-- The download URL of the pubchem branch (getpdb.py line 85). -/
def PUBCHEM_URL (code ftype : String) : String :=
  "https://pubchem.ncbi.nlm.nih.gov/rest/pug/compound/CID/" ++ code ++ "/record/"
    ++ pyUpper ftype ++ "?record_type=3d"

/-- The metadata URL of the alphafold branch (getpdb.py line 93). -/
def ALPHAFOLD_URL (code : String) : String :=
  "https://alphafold.ebi.ac.uk/api/prediction/" ++ pyUpper code

/- ---------------------------------------------------------------------------
_getpdb (getpdb.py lines 60-114).
--------------------------------------------------------------------------- -/

/-- requests.get followed by response.raise_for_status: the issued request is
recorded; a transport error or a status of 400 or above becomes a FetchError. -/
def httpGet (host url : String) (verify : Bool) (w : World) :
    Except FetchError Response × List Request :=
  (match w.get url verify with
   | Except.error e => Except.error (FetchError.network e)
   | Except.ok r =>
     if 400 ≤ r.status then Except.error (FetchError.httpStatus r.status) else Except.ok r,
   [⟨host, url, verify⟩])

/-- The second GET of the alphafold branch (getpdb.py lines 106-109), against
the URL extracted from the metadata document. -/
def alphaSecond (host url : String) (verify : Bool) (w : World) (pre : List Request) :
    HostResult :=
  let g := httpGet host url verify w
  match g.1 with
  | Except.error e => ⟨Except.error e, pre ++ g.2, []⟩
  | Except.ok r => ⟨Except.ok (pySplitLines r.text), pre ++ g.2, []⟩

/-- The rcsb branch of _getpdb (getpdb.py lines 62-68): GET the compressed
download URL, raise for status, decompress and ascii-decode, split into
lines. -/
def rcsbFetch (code ftype host : String) (verify : Bool) (w : World) : HostResult :=
  let g := httpGet host (RCSB_URL code ftype) verify w
  match g.1 with
  | Except.error e => ⟨Except.error e, g.2, []⟩
  | Except.ok r =>
    match w.gunzipAscii r.content with
    | Except.error e => ⟨Except.error (FetchError.decode e), g.2, [r.content]⟩
    | Except.ok s => ⟨Except.ok (pySplitLines s), g.2, [r.content]⟩

/-- The rcsb-ligand branch of _getpdb (getpdb.py lines 70-81): GET the ligand
download URL (idealized variant for sdf and mol2), raise for status, split the
response text into lines with no decompression. -/
def ligandFetch (code ftype host : String) (verify : Bool) (w : World) : HostResult :=
  let g := httpGet host (LIGAND_URL code ftype) verify w
  match g.1 with
  | Except.error e => ⟨Except.error e, g.2, []⟩
  | Except.ok r => ⟨Except.ok (pySplitLines r.text), g.2, []⟩

/-- The pubchem branch of _getpdb (getpdb.py lines 83-89): GET the compound
record URL, raise for status, split the response text into lines. -/
def pubchemFetch (code ftype host : String) (verify : Bool) (w : World) : HostResult :=
  let g := httpGet host (PUBCHEM_URL code ftype) verify w
  match g.1 with
  | Except.error e => ⟨Except.error e, g.2, []⟩
  | Except.ok r => ⟨Except.ok (pySplitLines r.text), g.2, []⟩

/-- The alphafold branch of _getpdb (getpdb.py lines 91-109): GET the
prediction metadata, read the type-specific URL from its first entry (raising
for an unknown type), then GET that URL and split the text into lines. -/
def alphafoldFetch (code ftype host : String) (verify : Bool) (w : World) : HostResult :=
  let g := httpGet host (ALPHAFOLD_URL code) verify w
  match g.1 with
  | Except.error e => ⟨Except.error e, g.2, []⟩
  | Except.ok r =>
    match w.jsonFirst r with
    | Except.error e => ⟨Except.error (FetchError.decode e), g.2, []⟩
    | Except.ok meta =>
      if pyLower ftype = "cif" then alphaSecond host meta.cifUrl verify w g.2
      else if pyLower ftype = "bcif" then alphaSecond host meta.bcifUrl verify w g.2
      else if pyLower ftype = "pdb" then alphaSecond host meta.pdbUrl verify w g.2
      else ⟨Except.error (FetchError.invalidFileType ftype), g.2, []⟩

/-- Translation of _getpdb (getpdb.py lines 60-114): fetch one code from one
host, dispatching on the lower-cased host tag; returns the payload as a list
of lines or the raised exception, together with the request and decompression
traces. -/
def _getpdb (code ftype host : String) (verify : Bool) (w : World) : HostResult :=
  if pyLower host = "rcsb" then rcsbFetch code ftype host verify w
  else if pyLower host = "rcsb-ligand" then ligandFetch code ftype host verify w
  else if pyLower host = "pubchem" then pubchemFetch code ftype host verify w
  else if pyLower host = "alphafold" then alphafoldFetch code ftype host verify w
  else ⟨Except.error (FetchError.unknownHost host), [], []⟩

/- ---------------------------------------------------------------------------
getpdb (getpdb.py lines 117-182).
--------------------------------------------------------------------------- -/

/-- Default-type inference of getpdb (getpdb.py lines 136-140): when the type
argument is absent or empty (Python falsiness), identifiers shorter than four
characters get the small default and all others the large default. -/
def resolveType (code : String) (ftype? : Option String) : String :=
  match ftype? with
  | none => if code.length < 4 then FILE_DEFAULT_SMALL else FILE_DEFAULT_LARGE
  | some t =>
    if t = "" then (if code.length < 4 then FILE_DEFAULT_SMALL else FILE_DEFAULT_LARGE) else t

/-- The host-fallback loop of getpdb (getpdb.py lines 144-156): iterate the
registry keys in order; skip (with a warning) hosts whose capability list does
not contain the lower-cased type; otherwise attempt the host, breaking on the
first success and logging a warning on failure.  Returns the fetched data
(empty when every attempt failed), the requests issued and the log entries. -/
def fetchLoop (code ftype : String) (verify : Bool) (w : World) :
    List String → List String × List Request × List LogEntry
  | [] => ([], [], [])
  | host :: rest =>
    if pyLower ftype ∈ hostTypes host then
      match (_getpdb code ftype host verify w).result with
      | Except.ok d => (d, (_getpdb code ftype host verify w).requests, [])
      | Except.error e =>
        ((fetchLoop code ftype verify w rest).1,
         (_getpdb code ftype host verify w).requests ++ (fetchLoop code ftype verify w rest).2.1,
         LogEntry.warnFetch e :: (fetchLoop code ftype verify w rest).2.2)
    else
      ((fetchLoop code ftype verify w rest).1,
       (fetchLoop code ftype verify w rest).2.1,
       LogEntry.warnSkip host ftype :: (fetchLoop code ftype verify w rest).2.2)

/-- The write block without a directory (getpdb.py lines 173-175): open the
output file in mode w and print every payload line to it; an OS failure of
open is caught and logged as an error.  The source never calls close on the
handle, so no close event is emitted. -/
def writeNoDir (output : String) (data : List String) (w : World) :
    List FileEvent × Option (String × String) × List LogEntry :=
  match w.openErr output with
  | some e => ([], none, [LogEntry.errorWrite e])
  | none =>
    (FileEvent.openTrunc output :: data.map FileEvent.writeLine,
     some (output, writeLinesContent data), [])

/-- The write block with a truthy directory (getpdb.py lines 170-178):
os.makedirs is invoked on the directory first with exist_ok, then the file is
opened in mode w and the lines printed; any failure is caught and logged as an
error for this identifier.  The handle is never explicitly closed. -/
def writeDir (p output : String) (data : List String) (w : World) :
    List FileEvent × Option (String × String) × List LogEntry :=
  match w.makedirsErr p with
  | some e => ([], none, [LogEntry.errorWrite e])
  | none =>
    match w.openErr output with
    | some e => ([FileEvent.makedirs p], none, [LogEntry.errorWrite e])
    | none =>
      (FileEvent.makedirs p :: FileEvent.openTrunc output :: data.map FileEvent.writeLine,
       some (output, writeLinesContent data), [])

/-- Translation of getpdb (getpdb.py lines 117-182): resolve the type, run the
host-fallback loop, log an error and stop when no data was fetched, otherwise
build the output name (the code as given, with the lower-cased type as
extension, joined under the directory when the directory is truthy) and run
the write block.  The function is total: every exception of the source is
caught inside it, so it always returns an Outcome. -/
def getpdb (code : String) (ftype? path? : Option String) (verify : Bool) (w : World) :
    Outcome :=
  let t := resolveType code ftype?
  let fl := fetchLoop code t verify w (DATABASE_HOSTS.map Prod.fst)
  if fl.1 = [] then
    ⟨fl.2.1, [], none, fl.2.2 ++ [LogEntry.errorCouldNotFetch code t]⟩
  else
    let fname := code ++ "." ++ pyLower t
    let wp :=
      match path? with
      | some p => if p = "" then writeNoDir fname fl.1 w
                  else writeDir p (joinPath p fname) fl.1 w
      | none => writeNoDir fname fl.1 w
    ⟨fl.2.1, wp.1, wp.2.1, fl.2.2 ++ wp.2.2⟩

/- ---------------------------------------------------------------------------
main (getpdb.py lines 185-235).
--------------------------------------------------------------------------- -/

/-- The value argparse stores for the option declared with action store_true
and dest verify (getpdb.py lines 213-216): False when the no-ssl-verify flag
is absent from the command line, True when it is present. -/
def argsVerify (noSslVerifyFlagGiven : Bool) : Bool := noSslVerifyFlagGiven

/-- The per-identifier loop of main (getpdb.py lines 232-233): getpdb is called
for every identifier with the parsed type, directory and verify values. -/
def mainRun (codes : List String) (ftype? dir? : Option String)
    (noSslVerifyFlagGiven : Bool) (w : World) : List Outcome :=
  codes.map fun c => getpdb c ftype? dir? (argsVerify noSslVerifyFlagGiven) w

/- ---------------------------------------------------------------------------
Directory-creation semantics.  os.makedirs is an external collaborator of the
source (getpdb.py line 172 calls it with exist_ok=True); the model below
follows its documented semantics: the leaf directory and every missing
ancestor are created, and with exist_ok no exception is raised for an already
existing directory.  Directories are component lists, a filesystem is the list
of existing directories.
--------------------------------------------------------------------------- -/

/-- All ancestor directories of a path, shortest first, the path itself last. -/
def dirChain (p : List String) : List (List String) :=
  (List.range p.length).map (fun i => p.take (i + 1))

/-- Effect of os.makedirs on the set of existing directories: every ancestor
of the path is added unless already present. -/
def makedirsFS (dirs : List (List String)) (p : List String) : List (List String) :=
  (dirChain p).foldl (fun ds d => if d ∈ ds then ds else ds ++ [d]) dirs

/-- os.makedirs as called by the source: with exist_ok set, it never raises;
without it, it raises FileExistsError when the leaf directory already exists. -/
def makedirsCall (dirs : List (List String)) (p : List String) (existOk : Bool) :
    Except String (List (List String)) :=
  if existOk = false ∧ p ∈ dirs then Except.error "FileExistsError"
  else Except.ok (makedirsFS dirs p)

/- ---------------------------------------------------------------------------
Concrete worlds used to evaluate the model at specific inputs.
--------------------------------------------------------------------------- -/

/-- A successful response with a two-line text body. -/
def okResponse : Response := ⟨200, [31, 139], "HEADER\nEND"⟩

/-- A world where every request succeeds with okResponse, decompression yields
the two-line payload, the metadata document has its three URLs, and the
filesystem never fails. -/
def wDemo : World :=
  ⟨fun _ _ => Except.ok okResponse,
   fun _ => Except.ok "HEADER\nEND",
   fun _ => Except.ok ⟨"https://alphafold.test/m.cif", "https://alphafold.test/m.bcif",
     "https://alphafold.test/m.pdb"⟩,
   fun _ => none,
   fun _ => none⟩

/-- A world where every request fails at the transport level. -/
def wFail : World :=
  ⟨fun _ _ => Except.error "connection refused",
   fun _ => Except.error "bad gzip",
   fun _ => Except.error "bad json",
   fun _ => none,
   fun _ => none⟩

/- ---------------------------------------------------------------------------
Small observables used by the theorem statements.
--------------------------------------------------------------------------- -/

/-- Whether an Except value is a success. -/
def exceptOk {ε α : Type} : Except ε α → Bool
  | Except.ok _ => true
  | Except.error _ => false

/-- Whether a host attempt ended in the explicit invalid-file-type raise of
the alphafold branch. -/
def isInvalidFileTypeErr : Except FetchError (List String) → Bool
  | Except.error (FetchError.invalidFileType _) => true
  | _ => false

/-- True when none of the requests of an outcome was issued for the given
registry host. -/
def noReqToHost (o : Outcome) (host : String) : Bool :=
  o.requests.all fun r => r.host != host

/-- The TLS-verification flags of the requests of an outcome, in order. -/
def requestVerifies (o : Outcome) : List Bool :=
  o.requests.map Request.verify

/-- True when every ancestor of the path exists in the directory list. -/
def coversChain (dirs : List (List String)) (p : List String) : Bool :=
  (dirChain p).all fun d => decide (d ∈ dirs)

/- ---------------------------------------------------------------------------
Helper lemmas.
--------------------------------------------------------------------------- -/

theorem splitNlAux_ne_nil (cs : List Char) (acc : String) : splitNlAux cs acc ≠ [] := by
  induction cs generalizing acc with
  | nil => simp [splitNlAux]
  | cons c cs ih =>
    simp only [splitNlAux]
    split
    · simp
    · exact ih _

theorem pySplitLines_ne_nil (s : String) : pySplitLines s ≠ [] :=
  splitNlAux_ne_nil s.data ""

theorem foldl_append_str (l : List String) :
    ∀ a : String, l.foldl (fun r s => r ++ s) a = a ++ l.foldl (fun r s => r ++ s) "" := by
  induction l with
  | nil => intro a; simp [String.append_empty]
  | cons b bs ih =>
    intro a
    simp only [List.foldl_cons]
    rw [ih (a ++ b), ih ("" ++ b), String.empty_append, String.append_assoc]

theorem intercalate_go (s : String) (l : List String) :
    ∀ acc, String.intercalate.go acc s l = acc ++ String.join (l.map (fun a => s ++ a)) := by
  induction l with
  | nil => intro acc; simp [String.intercalate.go, String.join]
  | cons b bs ih =>
    intro acc
    rw [String.intercalate.go, ih]
    simp only [String.join, List.map_cons, List.foldl_cons]
    rw [foldl_append_str _ ("" ++ (s ++ b)), String.empty_append]
    simp [String.append_assoc]

theorem intercalate_cons (s a : String) (as : List String) :
    String.intercalate s (a :: as) = String.intercalate.go a s as := rfl

theorem writeLinesContent_eq_intercalate (data : List String) (hd : data ≠ []) :
    writeLinesContent data = String.intercalate "\n" data ++ "\n" := by
  induction data with
  | nil => exact absurd rfl hd
  | cons a as ih =>
    cases as with
    | nil =>
      rw [intercalate_cons, intercalate_go]
      simp [writeLinesContent, String.join, String.append_empty]
    | cons b bs =>
      rw [writeLinesContent, ih (by simp), intercalate_cons, intercalate_cons,
        intercalate_go, intercalate_go]
      simp only [List.map_cons, String.join, List.foldl_cons]
      rw [foldl_append_str _ ("" ++ ("\n" ++ b)), String.empty_append]
      simp [String.append_assoc]

theorem httpGet_requests (host url : String) (verify : Bool) (w : World) :
    (httpGet host url verify w).2 = [⟨host, url, verify⟩] := rfl


theorem alphaSecond_ok_shape (host url : String) (verify : Bool) (w : World)
    (pre : List Request) (d : List String)
    (h : (alphaSecond host url verify w pre).result = Except.ok d) :
    ∃ s, d = pySplitLines s := by
  simp only [alphaSecond] at h
  split at h
  · simp at h
  · simp at h; exact ⟨_, h.symm⟩

theorem alphaSecond_req_host (host url : String) (verify : Bool) (w : World)
    (pre : List Request) (hpre : ∀ x ∈ pre, Request.host x = host) (r : Request)
    (hr : r ∈ (alphaSecond host url verify w pre).requests) : r.host = host := by
  simp only [alphaSecond, httpGet_requests] at hr
  split at hr
  · simp at hr
    rcases hr with hl | hl
    · exact hpre r hl
    · rw [hl]
  · simp at hr
    rcases hr with hl | hl
    · exact hpre r hl
    · rw [hl]

theorem rcsbFetch_ok_shape (code ftype host : String) (verify : Bool) (w : World)
    (d : List String) (h : (rcsbFetch code ftype host verify w).result = Except.ok d) :
    ∃ s, d = pySplitLines s := by
  simp only [rcsbFetch] at h
  split at h
  · simp at h
  · split at h
    · simp at h
    · simp at h; exact ⟨_, h.symm⟩

theorem rcsbFetch_req_host (code ftype host : String) (verify : Bool) (w : World)
    (r : Request) (hr : r ∈ (rcsbFetch code ftype host verify w).requests) : r.host = host := by
  simp only [rcsbFetch, httpGet_requests] at hr
  split at hr
  · simp at hr; rw [hr]
  · split at hr
    · simp at hr; rw [hr]
    · simp at hr; rw [hr]

theorem ligandFetch_ok_shape (code ftype host : String) (verify : Bool) (w : World)
    (d : List String) (h : (ligandFetch code ftype host verify w).result = Except.ok d) :
    ∃ s, d = pySplitLines s := by
  simp only [ligandFetch] at h
  split at h
  · simp at h
  · simp at h; exact ⟨_, h.symm⟩

theorem ligandFetch_req_host (code ftype host : String) (verify : Bool) (w : World)
    (r : Request) (hr : r ∈ (ligandFetch code ftype host verify w).requests) : r.host = host := by
  simp only [ligandFetch, httpGet_requests] at hr
  split at hr
  · simp at hr; rw [hr]
  · simp at hr; rw [hr]

theorem pubchemFetch_ok_shape (code ftype host : String) (verify : Bool) (w : World)
    (d : List String) (h : (pubchemFetch code ftype host verify w).result = Except.ok d) :
    ∃ s, d = pySplitLines s := by
  simp only [pubchemFetch] at h
  split at h
  · simp at h
  · simp at h; exact ⟨_, h.symm⟩

theorem pubchemFetch_req_host (code ftype host : String) (verify : Bool) (w : World)
    (r : Request) (hr : r ∈ (pubchemFetch code ftype host verify w).requests) :
    r.host = host := by
  simp only [pubchemFetch, httpGet_requests] at hr
  split at hr
  · simp at hr; rw [hr]
  · simp at hr; rw [hr]

theorem alphafoldFetch_ok_shape (code ftype host : String) (verify : Bool) (w : World)
    (d : List String) (h : (alphafoldFetch code ftype host verify w).result = Except.ok d) :
    ∃ s, d = pySplitLines s := by
  simp only [alphafoldFetch] at h
  split at h
  · simp at h
  · split at h
    · simp at h
    · split at h
      · exact alphaSecond_ok_shape _ _ _ _ _ _ h
      · split at h
        · exact alphaSecond_ok_shape _ _ _ _ _ _ h
        · split at h
          · exact alphaSecond_ok_shape _ _ _ _ _ _ h
          · simp at h

theorem alphafoldFetch_req_host (code ftype host : String) (verify : Bool) (w : World)
    (r : Request) (hr : r ∈ (alphafoldFetch code ftype host verify w).requests) :
    r.host = host := by
  have hpre : ∀ x ∈ [(⟨host, ALPHAFOLD_URL code, verify⟩ : Request)], Request.host x = host := by
    intro x hx; simp at hx; rw [hx]
  simp only [alphafoldFetch, httpGet_requests] at hr
  split at hr
  · simp at hr; rw [hr]
  · split at hr
    · simp at hr; rw [hr]
    · split at hr
      · exact alphaSecond_req_host _ _ _ _ _ hpre r hr
      · split at hr
        · exact alphaSecond_req_host _ _ _ _ _ hpre r hr
        · split at hr
          · exact alphaSecond_req_host _ _ _ _ _ hpre r hr
          · simp at hr; rw [hr]

theorem getpdbHost_ok_shape (code ftype host : String) (verify : Bool) (w : World)
    (d : List String) (h : (_getpdb code ftype host verify w).result = Except.ok d) :
    ∃ s, d = pySplitLines s := by
  unfold _getpdb at h
  split at h
  · exact rcsbFetch_ok_shape _ _ _ _ _ _ h
  · split at h
    · exact ligandFetch_ok_shape _ _ _ _ _ _ h
    · split at h
      · exact pubchemFetch_ok_shape _ _ _ _ _ _ h
      · split at h
        · exact alphafoldFetch_ok_shape _ _ _ _ _ _ h
        · simp at h

theorem getpdbHost_ok_ne_nil (code ftype host : String) (verify : Bool) (w : World)
    (d : List String) (h : (_getpdb code ftype host verify w).result = Except.ok d) :
    d ≠ [] := by
  obtain ⟨s, rfl⟩ := getpdbHost_ok_shape code ftype host verify w d h
  exact pySplitLines_ne_nil s

theorem getpdbHost_req_host (code ftype host : String) (verify : Bool) (w : World)
    (r : Request) (hr : r ∈ (_getpdb code ftype host verify w).requests) : r.host = host := by
  unfold _getpdb at hr
  split at hr
  · exact rcsbFetch_req_host _ _ _ _ _ _ hr
  · split at hr
    · exact ligandFetch_req_host _ _ _ _ _ _ hr
    · split at hr
      · exact pubchemFetch_req_host _ _ _ _ _ _ hr
      · split at hr
        · exact alphafoldFetch_req_host _ _ _ _ _ _ hr
        · simp at hr

theorem fetchLoop_cons_success (code ftype : String) (verify : Bool) (w : World)
    (host : String) (rest : List String) (d : List String)
    (hel : pyLower ftype ∈ hostTypes host)
    (hok : (_getpdb code ftype host verify w).result = Except.ok d) :
    fetchLoop code ftype verify w (host :: rest) =
      (d, (_getpdb code ftype host verify w).requests, []) := by
  simp only [fetchLoop]
  rw [if_pos hel, hok]

theorem fetchLoop_all_fail (code ftype : String) (verify : Bool) (w : World)
    (hosts : List String)
    (hall : ∀ h' ∈ hosts, pyLower ftype ∈ hostTypes h' →
      exceptOk (_getpdb code ftype h' verify w).result = false) :
    (fetchLoop code ftype verify w hosts).1 = [] := by
  induction hosts with
  | nil => rfl
  | cons host rest ih =>
    simp only [fetchLoop]
    by_cases hel : pyLower ftype ∈ hostTypes host
    · rw [if_pos hel]
      cases hres : (_getpdb code ftype host verify w).result with
      | ok d =>
        exfalso
        have hb := hall host (List.mem_cons_self host rest) hel
        rw [hres] at hb
        simp [exceptOk] at hb
      | error e =>
        exact ih (fun h' hm he => hall h' (List.mem_cons_of_mem _ hm) he)
    · rw [if_neg hel]
      exact ih (fun h' hm he => hall h' (List.mem_cons_of_mem _ hm) he)

theorem fetchLoop_requests_src (code ftype : String) (verify : Bool) (w : World)
    (hosts : List String) (r : Request)
    (hr : r ∈ (fetchLoop code ftype verify w hosts).2.1) :
    ∃ h', h' ∈ hosts ∧ pyLower ftype ∈ hostTypes h' ∧
      r ∈ (_getpdb code ftype h' verify w).requests := by
  induction hosts with
  | nil => simp [fetchLoop] at hr
  | cons host rest ih =>
    simp only [fetchLoop] at hr
    by_cases hel : pyLower ftype ∈ hostTypes host
    · rw [if_pos hel] at hr
      cases hres : (_getpdb code ftype host verify w).result with
      | ok d =>
        rw [hres] at hr
        simp at hr
        exact ⟨host, List.mem_cons_self host rest, hel, hr⟩
      | error e =>
        rw [hres] at hr
        simp at hr
        rcases hr with hl | hl
        · exact ⟨host, List.mem_cons_self host rest, hel, hl⟩
        · obtain ⟨h', hm, he, hq⟩ := ih hl
          exact ⟨h', List.mem_cons_of_mem _ hm, he, hq⟩
    · rw [if_neg hel] at hr
      obtain ⟨h', hm, he, hq⟩ := ih hr
      exact ⟨h', List.mem_cons_of_mem _ hm, he, hq⟩

theorem fetchLoop_skip_warn (code ftype : String) (verify : Bool) (w : World)
    (pre : List String) (host : String) (post : List String)
    (hpre : ∀ h' ∈ pre, pyLower ftype ∈ hostTypes h' →
      exceptOk (_getpdb code ftype h' verify w).result = false)
    (hnc : pyLower ftype ∉ hostTypes host) :
    LogEntry.warnSkip host ftype ∈ (fetchLoop code ftype verify w (pre ++ host :: post)).2.2 := by
  induction pre with
  | nil =>
    simp only [List.nil_append, fetchLoop]
    rw [if_neg hnc]
    exact List.mem_cons_self _ _
  | cons hd tl ih =>
    simp only [List.cons_append, fetchLoop]
    by_cases hel : pyLower ftype ∈ hostTypes hd
    · rw [if_pos hel]
      cases hres : (_getpdb code ftype hd verify w).result with
      | ok d =>
        exfalso
        have hb := hpre hd (List.mem_cons_self hd _) hel
        rw [hres] at hb
        simp [exceptOk] at hb
      | error e =>
        exact List.mem_cons_of_mem _
          (ih (fun h' hm he => hpre h' (List.mem_cons_of_mem _ hm) he))
    · rw [if_neg hel]
      exact List.mem_cons_of_mem _
        (ih (fun h' hm he => hpre h' (List.mem_cons_of_mem _ hm) he))

theorem getpdb_requests_eq (code : String) (ftype? path? : Option String) (verify : Bool)
    (w : World) :
    (getpdb code ftype? path? verify w).requests =
      (fetchLoop code (resolveType code ftype?) verify w (DATABASE_HOSTS.map Prod.fst)).2.1 := by
  simp only [getpdb]
  split
  · rfl
  · rfl

theorem getpdb_logs_mem (code : String) (ftype? path? : Option String) (verify : Bool)
    (w : World) (l : LogEntry)
    (hl : l ∈ (fetchLoop code (resolveType code ftype?) verify w
      (DATABASE_HOSTS.map Prod.fst)).2.2) :
    l ∈ (getpdb code ftype? path? verify w).logs := by
  simp only [getpdb]
  split
  · exact List.mem_append_left _ hl
  · exact List.mem_append_left _ hl

theorem insFold_preserve (l : List (List String)) (ds : List (List String))
    (x : List String) (hx : x ∈ ds) :
    x ∈ l.foldl (fun ds d => if d ∈ ds then ds else ds ++ [d]) ds := by
  induction l generalizing ds with
  | nil => exact hx
  | cons a l ih =>
    simp only [List.foldl_cons]
    apply ih
    by_cases ha : a ∈ ds
    · rw [if_pos ha]; exact hx
    · rw [if_neg ha]; exact List.mem_append_left _ hx

theorem insFold_adds (l : List (List String)) (ds : List (List String))
    (d : List String) (hd : d ∈ l) :
    d ∈ l.foldl (fun ds d => if d ∈ ds then ds else ds ++ [d]) ds := by
  induction l generalizing ds with
  | nil => simp at hd
  | cons a l ih =>
    simp only [List.foldl_cons]
    rcases List.mem_cons.mp hd with rfl | hm
    · apply insFold_preserve
      by_cases ha : d ∈ ds
      · rw [if_pos ha]; exact ha
      · rw [if_neg ha]; exact List.mem_append_right _ (List.mem_singleton_self d)
    · exact ih _ hm

theorem insFold_noop (l : List (List String)) (ds : List (List String))
    (hall : ∀ d ∈ l, d ∈ ds) :
    l.foldl (fun ds d => if d ∈ ds then ds else ds ++ [d]) ds = ds := by
  induction l with
  | nil => rfl
  | cons a l ih =>
    simp only [List.foldl_cons]
    rw [if_pos (hall a (List.mem_cons_self a l))]
    exact ih (fun d hd => hall d (List.mem_cons_of_mem _ hd))

theorem makedirsFS_idem (dirs : List (List String)) (p : List String) :
    makedirsFS (makedirsFS dirs p) p = makedirsFS dirs p := by
  unfold makedirsFS
  exact insFold_noop _ _ (fun d hd => insFold_adds _ _ _ hd)

theorem makedirsCall_exist_ok (dirs : List (List String)) (p : List String) :
    makedirsCall dirs p true = Except.ok (makedirsFS dirs p) := by
  unfold makedirsCall
  rw [if_neg]
  simp

theorem coversChain_makedirsFS (dirs : List (List String)) (p : List String) :
    coversChain (makedirsFS dirs p) p = true := by
  unfold coversChain
  rw [List.all_eq_true]
  intro d hd
  exact decide_eq_true (insFold_adds _ _ _ hd)

theorem httpGet_ok (host url : String) (verify : Bool) (w : World) (r : Response)
    (hget : w.get url verify = Except.ok r) (hst : r.status < 400) :
    (httpGet host url verify w).1 = Except.ok r := by
  simp only [httpGet]
  rw [hget]
  show (if 400 ≤ r.status then Except.error (FetchError.httpStatus r.status)
    else Except.ok r) = Except.ok r
  rw [if_neg (by omega)]

theorem rcsbFetch_success (code ftype host : String) (verify : Bool) (w : World)
    (r : Response) (s : String)
    (hget : w.get (RCSB_URL code ftype) verify = Except.ok r) (hst : r.status < 400)
    (hgz : w.gunzipAscii r.content = Except.ok s) :
    rcsbFetch code ftype host verify w =
      ⟨Except.ok (pySplitLines s), [⟨host, RCSB_URL code ftype, verify⟩], [r.content]⟩ := by
  simp only [rcsbFetch, httpGet_requests]
  rw [httpGet_ok host (RCSB_URL code ftype) verify w r hget hst]
  simp [hgz]

theorem ligandFetch_success (code ftype host : String) (verify : Bool) (w : World)
    (r : Response)
    (hget : w.get (LIGAND_URL code ftype) verify = Except.ok r) (hst : r.status < 400) :
    ligandFetch code ftype host verify w =
      ⟨Except.ok (pySplitLines r.text), [⟨host, LIGAND_URL code ftype, verify⟩], []⟩ := by
  simp only [ligandFetch, httpGet_requests]
  rw [httpGet_ok host (LIGAND_URL code ftype) verify w r hget hst]

theorem getpdb_write_nodir (code : String) (ftype? : Option String) (verify : Bool)
    (w : World) (d : List String)
    (hfl : (fetchLoop code (resolveType code ftype?) verify w
      (DATABASE_HOSTS.map Prod.fst)).1 = d)
    (hdnil : d ≠ [])
    (ho : w.openErr (code ++ "." ++ pyLower (resolveType code ftype?)) = none) :
    (getpdb code ftype? none verify w).written =
      some (code ++ "." ++ pyLower (resolveType code ftype?), writeLinesContent d) ∧
    (getpdb code ftype? none verify w).fileEvents =
      FileEvent.openTrunc (code ++ "." ++ pyLower (resolveType code ftype?))
        :: d.map FileEvent.writeLine := by
  simp only [getpdb]
  rw [hfl, if_neg hdnil]
  constructor
  · show (writeNoDir (code ++ "." ++ pyLower (resolveType code ftype?)) d w).2.1 = _
    unfold writeNoDir
    rw [ho]
  · show (writeNoDir (code ++ "." ++ pyLower (resolveType code ftype?)) d w).1 = _
    unfold writeNoDir
    rw [ho]

/- ---------------------------------------------------------------------------
Claim theorems.
--------------------------------------------------------------------------- -/

/-- C1: the no-ssl-verify option is declared with action store_true and dest
verify (getpdb.py lines 213-216), so the parsed verify value equals the flag's
presence.  A run WITHOUT the flag therefore issues its requests with verify
false (TLS verification disabled) and a run WITH the flag issues them with
verify true — the opposite of the claim and of the option's own help text,
which says the flag disables verification. -/
theorem cli_tls_flag_inverted :
    argsVerify false = false ∧ argsVerify true = true ∧
    (mainRun ["1lyz"] none none false wDemo).map requestVerifies = [[false]] ∧
    (mainRun ["1lyz"] none none true wDemo).map requestVerifies = [[true]] :=
  ⟨rfl, rfl, rfl, rfl⟩

/-- C2: with no explicit file type, identifiers shorter than four characters
resolve to the short-form default sdf and all longer ones to the large-form
default cif (getpdb.py lines 31-33 and 136-140). -/
theorem type_inference_defaults (code : String) :
    resolveType code none = (if code.length < 4 then "sdf" else "cif") ∧
    FILE_DEFAULT_SMALL = "sdf" ∧ FILE_DEFAULT_LARGE = "cif" := by
  refine ⟨?_, rfl, rfl⟩
  by_cases h : code.length < 4
  · simp [resolveType, h, FILE_DEFAULT_SMALL]
  · simp [resolveType, h, FILE_DEFAULT_LARGE]

/-- C3: when every eligible host attempt fails, getpdb performs no file
operation at all (so no output file is created), logs the could-not-fetch
error, and returns normally — the embedding of getpdb is a total function
into Outcome because the source catches every host and write exception, so
nothing propagates. -/
theorem all_hosts_fail_no_file (code : String) (ftype? path? : Option String)
    (verify : Bool) (w : World)
    (hall : ∀ h' ∈ DATABASE_HOSTS.map Prod.fst,
      pyLower (resolveType code ftype?) ∈ hostTypes h' →
      exceptOk (_getpdb code (resolveType code ftype?) h' verify w).result = false) :
    (getpdb code ftype? path? verify w).written = none ∧
    (getpdb code ftype? path? verify w).fileEvents = [] ∧
    LogEntry.errorCouldNotFetch code (resolveType code ftype?) ∈
      (getpdb code ftype? path? verify w).logs := by
  have hnil := fetchLoop_all_fail code (resolveType code ftype?) verify w
    (DATABASE_HOSTS.map Prod.fst) hall
  simp only [getpdb]
  rw [if_pos hnil]
  exact ⟨rfl, rfl, List.mem_append_right _ (List.mem_singleton_self _)⟩

/-- Witness for the all-eligible-hosts-fail theorem, at a world where every
transport request is refused. -/
theorem all_hosts_fail_no_file_witness :
    (getpdb "1XYZ" none none true wFail).written = none ∧
    (getpdb "1XYZ" none none true wFail).fileEvents = [] ∧
    LogEntry.errorCouldNotFetch "1XYZ" (resolveType "1XYZ" none) ∈
      (getpdb "1XYZ" none none true wFail).logs :=
  all_hosts_fail_no_file "1XYZ" none none true wFail (by decide)

/-- C5: the registry is iterated in the fixed order rcsb, rcsb-ligand,
pubchem, alphafold, and as soon as an eligible host attempt succeeds the loop
returns exactly that attempt's payload and requests and nothing more — the
result does not depend on the remaining hosts, so none of them is contacted. -/
theorem host_order_and_first_success_stops :
    DATABASE_HOSTS.map Prod.fst = ["rcsb", "rcsb-ligand", "pubchem", "alphafold"] ∧
    ∀ (code ftype : String) (verify : Bool) (w : World) (host : String)
      (rest : List String) (d : List String),
      pyLower ftype ∈ hostTypes host →
      (_getpdb code ftype host verify w).result = Except.ok d →
      fetchLoop code ftype verify w (host :: rest) =
        (d, (_getpdb code ftype host verify w).requests, []) :=
  ⟨rfl, fun code ftype verify w host rest d hel hok =>
    fetchLoop_cons_success code ftype verify w host rest d hel hok⟩

/-- Witness for the host-order and first-success theorem: with every request
succeeding, the full registry run returns the rcsb payload and only the rcsb
request. -/
theorem host_order_and_first_success_stops_witness :
    DATABASE_HOSTS.map Prod.fst = ["rcsb", "rcsb-ligand", "pubchem", "alphafold"] ∧
    fetchLoop "1LYZ" "cif" true wDemo ["rcsb", "rcsb-ligand", "pubchem", "alphafold"] =
      (["HEADER", "END"], (_getpdb "1LYZ" "cif" "rcsb" true wDemo).requests, []) :=
  ⟨host_order_and_first_success_stops.1,
   host_order_and_first_success_stops.2 "1LYZ" "cif" true wDemo "rcsb"
     ["rcsb-ligand", "pubchem", "alphafold"] ["HEADER", "END"] (by decide) rfl⟩

/-- C4 counterexample: for requested type pdb, host rcsb-ligand does not
support the type, yet in a world where the first host rcsb succeeds the run
emits NO log entry at all — in particular no skip warning for rcsb-ligand —
because the loop breaks on the rcsb success before reaching rcsb-ligand.
This refutes the unconditional skipped-with-a-warning part of the claim. -/
theorem skip_warning_missing_cex :
    ("pdb" ∉ hostTypes "rcsb-ligand") ∧
    resolveType "1abc" (some "pdb") = "pdb" ∧
    (getpdb "1abc" (some "pdb") none true wDemo).logs = [] :=
  ⟨by decide, rfl, rfl⟩

/-- C4 amended: a host whose capability list lacks the lower-cased requested
type never receives a request; and it is skipped with a non-fatal warning
whenever the iteration reaches it, that is, when every eligible host before
it in the registry order fails (a success at an earlier host ends the loop
before the warning would be logged). -/
theorem incapable_host_never_contacted (code : String) (ftype? path? : Option String)
    (verify : Bool) (w : World) (host : String) (pre post : List String)
    (hsplit : DATABASE_HOSTS.map Prod.fst = pre ++ host :: post)
    (hnc : pyLower (resolveType code ftype?) ∉ hostTypes host)
    (hpre : ∀ h' ∈ pre, pyLower (resolveType code ftype?) ∈ hostTypes h' →
      exceptOk (_getpdb code (resolveType code ftype?) h' verify w).result = false) :
    noReqToHost (getpdb code ftype? path? verify w) host = true ∧
    LogEntry.warnSkip host (resolveType code ftype?) ∈
      (getpdb code ftype? path? verify w).logs := by
  constructor
  · unfold noReqToHost
    rw [List.all_eq_true]
    intro r hr
    rw [getpdb_requests_eq] at hr
    obtain ⟨h', hm, he, hq⟩ := fetchLoop_requests_src _ _ _ _ _ _ hr
    have hrh : r.host = h' := getpdbHost_req_host _ _ _ _ _ _ hq
    have hne : h' ≠ host := fun hcontra => hnc (hcontra ▸ he)
    simp only [bne_iff_ne, ne_eq]
    rw [hrh]
    exact hne
  · apply getpdb_logs_mem
    rw [hsplit]
    exact fetchLoop_skip_warn code (resolveType code ftype?) verify w pre host post hpre hnc

/-- Witness for the incapable-host theorem: with type pdb and every transport
failing, rcsb-ligand (which lacks pdb) receives no request and is skipped
with a warning. -/
theorem incapable_host_never_contacted_witness :
    noReqToHost (getpdb "1lyz" (some "pdb") none true wFail) "rcsb-ligand" = true ∧
    LogEntry.warnSkip "rcsb-ligand" (resolveType "1lyz" (some "pdb")) ∈
      (getpdb "1lyz" (some "pdb") none true wFail).logs :=
  incapable_host_never_contacted "1lyz" (some "pdb") none true wFail "rcsb-ligand"
    ["rcsb"] ["pubchem", "alphafold"] rfl (by decide) (by decide)

/-- C6 counterexample: the source builds the output name from the identifier
exactly as given (only the extension is lower-cased), so identifier 1LYZ with
a successful rcsb fetch writes the file 1LYZ.cif — not 1lyz.cif as the claim
states. -/
theorem round_trip_filename_cex :
    (getpdb "1LYZ" none none true wDemo).written = some ("1LYZ.cif", "HEADER\nEND\n") ∧
    ("1LYZ.cif" : String) ≠ "1lyz.cif" :=
  ⟨rfl, by decide⟩

/-- C6 amended: identifier 1LYZ with no type override resolves to the
large-form default cif; when the rcsb fetch succeeds and its payload
decompresses to s, the file written is named 1LYZ.cif (the identifier as
given, with the lower-cased type as extension) and its content is the
decompressed payload lines, each terminated by a newline. -/
theorem round_trip_1LYZ_amended (w : World) (r : Response) (s : String)
    (hget : w.get (RCSB_URL "1LYZ" "cif") true = Except.ok r)
    (hst : r.status < 400)
    (hgz : w.gunzipAscii r.content = Except.ok s)
    (ho : w.openErr "1LYZ.cif" = none) :
    resolveType "1LYZ" none = "cif" ∧
    (getpdb "1LYZ" none none true w).written =
      some ("1LYZ.cif", writeLinesContent (pySplitLines s)) := by
  have hres : (_getpdb "1LYZ" "cif" "rcsb" true w).result = Except.ok (pySplitLines s) := by
    have e : _getpdb "1LYZ" "cif" "rcsb" true w = rcsbFetch "1LYZ" "cif" "rcsb" true w := rfl
    rw [e, rcsbFetch_success "1LYZ" "cif" "rcsb" true w r s hget hst hgz]
  have hloop := fetchLoop_cons_success "1LYZ" "cif" true w "rcsb"
    ["rcsb-ligand", "pubchem", "alphafold"] (pySplitLines s) (by decide) hres
  have hfl : (fetchLoop "1LYZ" (resolveType "1LYZ" none) true w
      (DATABASE_HOSTS.map Prod.fst)).1 = pySplitLines s := by
    rw [show resolveType "1LYZ" none = "cif" from rfl,
      show DATABASE_HOSTS.map Prod.fst =
        "rcsb" :: ["rcsb-ligand", "pubchem", "alphafold"] from rfl, hloop]
  have hw := getpdb_write_nodir "1LYZ" none true w (pySplitLines s) hfl
    (pySplitLines_ne_nil s) ho
  exact ⟨rfl, hw.1⟩

/-- Witness for the amended 1LYZ round trip, at the all-success world. -/
theorem round_trip_1LYZ_amended_witness :
    resolveType "1LYZ" none = "cif" ∧
    (getpdb "1LYZ" none none true wDemo).written =
      some ("1LYZ.cif", writeLinesContent (pySplitLines "HEADER\nEND")) :=
  round_trip_1LYZ_amended wDemo okResponse "HEADER\nEND" rfl (by decide) rfl rfl

/-- C7 counterexample: a run that successfully writes a file performs no close
operation at all — the source opens the handle and prints to it but never
closes it, so the file is not closed before getpdb returns; closing is left
to the runtime's garbage collection. -/
theorem writer_never_closes_cex :
    (getpdb "1LYZ" none none true wDemo).written = some ("1LYZ.cif", "HEADER\nEND\n") ∧
    FileEvent.close ∉ (getpdb "1LYZ" none none true wDemo).fileEvents :=
  ⟨rfl, by decide⟩

/-- C7 amended: the Writer opens the destination file for writing with
truncation and writes each payload line terminated by exactly one newline, so
the final content is the lines joined by newlines with a trailing newline;
but it does not explicitly close the file — no close operation is performed
before getpdb returns. -/
theorem writer_truncate_newlines_no_close (output : String) (data : List String)
    (w : World) (ho : w.openErr output = none) (hd : data ≠ []) :
    (writeNoDir output data w).1 =
      FileEvent.openTrunc output :: data.map FileEvent.writeLine ∧
    (writeNoDir output data w).2.1 =
      some (output, String.intercalate "\n" data ++ "\n") ∧
    FileEvent.close ∉ (writeNoDir output data w).1 := by
  have h1 : (writeNoDir output data w).1 =
      FileEvent.openTrunc output :: data.map FileEvent.writeLine := by
    unfold writeNoDir
    rw [ho]
  refine ⟨h1, ?_, ?_⟩
  · show (writeNoDir output data w).2.1 = _
    unfold writeNoDir
    rw [ho]
    show some (output, writeLinesContent data) = _
    rw [writeLinesContent_eq_intercalate data hd]
  · rw [h1]
    simp

/-- Witness for the Writer theorem at a concrete file and payload. -/
theorem writer_truncate_newlines_no_close_witness :
    (writeNoDir "x.cif" ["a", "b"] wDemo).1 =
      FileEvent.openTrunc "x.cif" :: (["a", "b"]).map FileEvent.writeLine ∧
    (writeNoDir "x.cif" ["a", "b"] wDemo).2.1 =
      some ("x.cif", String.intercalate "\n" ["a", "b"] ++ "\n") ∧
    FileEvent.close ∉ (writeNoDir "x.cif" ["a", "b"] wDemo).1 :=
  writer_truncate_newlines_no_close "x.cif" ["a", "b"] wDemo rfl (by decide)

/-- C8: with a truthy output directory, getpdb performs the makedirs operation
on it before opening the output file (the event trace is makedirs, then open,
then the line writes); and directory creation has the semantics of os.makedirs
with exist_ok — it never raises, creates every missing ancestor of the path,
and is idempotent: running it again leaves the directory set unchanged. -/
theorem makedirs_before_open_idempotent (code : String) (ftype? : Option String)
    (p : String) (verify : Bool) (w : World) (d : List String)
    (dirs : List (List String)) (q : List String)
    (hp : p ≠ "")
    (hfl : (fetchLoop code (resolveType code ftype?) verify w
      (DATABASE_HOSTS.map Prod.fst)).1 = d)
    (hdnil : d ≠ [])
    (hm : w.makedirsErr p = none)
    (ho : w.openErr (joinPath p (code ++ "." ++ pyLower (resolveType code ftype?))) = none) :
    (getpdb code ftype? (some p) verify w).fileEvents =
      FileEvent.makedirs p
        :: FileEvent.openTrunc (joinPath p (code ++ "." ++ pyLower (resolveType code ftype?)))
        :: d.map FileEvent.writeLine ∧
    makedirsCall dirs q true = Except.ok (makedirsFS dirs q) ∧
    makedirsFS (makedirsFS dirs q) q = makedirsFS dirs q ∧
    coversChain (makedirsFS dirs q) q = true := by
  refine ⟨?_, makedirsCall_exist_ok dirs q, makedirsFS_idem dirs q,
    coversChain_makedirsFS dirs q⟩
  simp only [getpdb]
  rw [hfl, if_neg hdnil]
  show (if p = "" then writeNoDir (code ++ "." ++ pyLower (resolveType code ftype?)) d w
    else writeDir p (joinPath p (code ++ "." ++ pyLower (resolveType code ftype?))) d w).1 = _
  rw [if_neg hp]
  unfold writeDir
  rw [hm, ho]

/-- Witness for the makedirs-before-open theorem at the all-success world with
directory out and the nested sample path out/sub. -/
theorem makedirs_before_open_idempotent_witness :
    (getpdb "1LYZ" none (some "out") true wDemo).fileEvents =
      FileEvent.makedirs "out"
        :: FileEvent.openTrunc (joinPath "out" ("1LYZ" ++ "." ++ pyLower (resolveType "1LYZ" none)))
        :: (["HEADER", "END"]).map FileEvent.writeLine ∧
    makedirsCall [] ["out", "sub"] true = Except.ok (makedirsFS [] ["out", "sub"]) ∧
    makedirsFS (makedirsFS [] ["out", "sub"]) ["out", "sub"] = makedirsFS [] ["out", "sub"] ∧
    coversChain (makedirsFS [] ["out", "sub"]) ["out", "sub"] = true :=
  makedirs_before_open_idempotent "1LYZ" none "out" true wDemo ["HEADER", "END"]
    [] ["out", "sub"] (by decide) rfl (by decide) rfl rfl

theorem httpGet_err_shape (host url : String) (verify : Bool) (w : World) (e : FetchError)
    (h : (httpGet host url verify w).1 = Except.error e) :
    (∃ m, e = FetchError.network m) ∨ (∃ n, e = FetchError.httpStatus n) := by
  simp only [httpGet] at h
  cases hg : w.get url verify with
  | error m => rw [hg] at h; simp at h; exact Or.inl ⟨m, h.symm⟩
  | ok r =>
    rw [hg] at h
    have h' : (if 400 ≤ r.status then (Except.error (FetchError.httpStatus r.status) :
        Except FetchError Response) else Except.ok r) = Except.error e := h
    split at h'
    · simp at h'; exact Or.inr ⟨r.status, h'.symm⟩
    · simp at h'

theorem alphaSecond_not_invalid (host url : String) (verify : Bool) (w : World)
    (pre : List Request) :
    isInvalidFileTypeErr (alphaSecond host url verify w pre).result = false := by
  simp only [alphaSecond]
  split
  next e heq =>
    rcases httpGet_err_shape host url verify w e heq with ⟨m, rfl⟩ | ⟨n, rfl⟩
    · rfl
    · rfl
  next r heq => rfl

theorem ligandFetch_requests (code ftype host : String) (verify : Bool) (w : World) :
    (ligandFetch code ftype host verify w).requests =
      [⟨host, LIGAND_URL code ftype, verify⟩] := by
  simp only [ligandFetch, httpGet_requests]
  split
  · rfl
  · rfl

theorem ligandFetch_gunzips (code ftype host : String) (verify : Bool) (w : World) :
    (ligandFetch code ftype host verify w).gunzips = [] := by
  simp only [ligandFetch]
  split
  · rfl
  · rfl

/-- C9: for the rcsb-ligand host exactly one GET is issued, at the ligand
URL; among the supported types (cif, sdf, mol2) the URL carries the _ideal
suffix after the upper-cased identifier exactly when the lower-cased type is
sdf or mol2 (otherwise the plain upper-cased identifier is used); and on a
successful response the response text is split into lines with gzip
decompression never invoked. -/
theorem ligand_ideal_url_no_decompress (code ftype : String) (verify : Bool) (w : World)
    (r : Response)
    (hsupp : pyLower ftype ∈ hostTypes "rcsb-ligand")
    (hget : w.get (LIGAND_URL code ftype) verify = Except.ok r)
    (hst : r.status < 400) :
    (_getpdb code ftype "rcsb-ligand" verify w).requests.map Request.url =
      [LIGAND_URL code ftype] ∧
    (_getpdb code ftype "rcsb-ligand" verify w).gunzips = [] ∧
    ((pyLower ftype = "sdf" ∨ pyLower ftype = "mol2") ↔
      LIGAND_URL code ftype =
        "https://files.rcsb.org/ligands/download/" ++ pyUpper code
          ++ "_ideal." ++ pyLower ftype) ∧
    (_getpdb code ftype "rcsb-ligand" verify w).result = Except.ok (pySplitLines r.text) := by
  have e : _getpdb code ftype "rcsb-ligand" verify w =
      ligandFetch code ftype "rcsb-ligand" verify w := rfl
  have hsupp' : pyLower ftype = "cif" ∨ pyLower ftype = "sdf" ∨ pyLower ftype = "mol2" := by
    rw [show hostTypes "rcsb-ligand" = ["cif", "sdf", "mol2"] from rfl] at hsupp
    simpa using hsupp
  refine ⟨?_, ?_, ⟨?_, ?_⟩, ?_⟩
  · rw [e, ligandFetch_requests]
    rfl
  · rw [e, ligandFetch_gunzips]
  · intro hm
    have hmem : pyLower ftype ∈ ["sdf", "mol2"] := by
      rcases hm with h | h <;> simp [h]
    unfold LIGAND_URL
    rw [if_pos hmem]
  · intro heq
    rcases hsupp' with h1 | h1 | h1
    · exfalso
      have hnm : pyLower ftype ∉ ["sdf", "mol2"] := by rw [h1]; decide
      unfold LIGAND_URL at heq
      rw [if_neg hnm, h1] at heq
      have hl := congrArg String.length heq
      simp only [String.length_append] at hl
      have l1 : ("." : String).length = 1 := rfl
      have l2 : ("_ideal." : String).length = 7 := rfl
      rw [l1, l2] at hl
      omega
    · exact Or.inl h1
    · exact Or.inr h1
  · rw [e]
    simp only [ligandFetch]
    rw [httpGet_ok "rcsb-ligand" (LIGAND_URL code ftype) verify w r hget hst]

/-- C10: the alphafold registry capabilities are exactly cif, bcif and pdb,
and under that precondition — which the loop's capability filter establishes
before any _getpdb call for alphafold — the invalid-file-type raise inside
the alphafold branch is unreachable: no run of the branch can end in that
error. -/
theorem alphafold_invalid_type_unreachable (code ftype : String) (verify : Bool)
    (w : World) (h : pyLower ftype ∈ hostTypes "alphafold") :
    hostTypes "alphafold" = ["cif", "bcif", "pdb"] ∧
    isInvalidFileTypeErr (_getpdb code ftype "alphafold" verify w).result = false := by
  refine ⟨rfl, ?_⟩
  have h' : pyLower ftype = "cif" ∨ pyLower ftype = "bcif" ∨ pyLower ftype = "pdb" := by
    rw [show hostTypes "alphafold" = ["cif", "bcif", "pdb"] from rfl] at h
    simpa using h
  have e : _getpdb code ftype "alphafold" verify w =
      alphafoldFetch code ftype "alphafold" verify w := rfl
  rw [e]
  simp only [alphafoldFetch]
  split
  next e2 heq =>
    rcases httpGet_err_shape _ _ _ _ _ heq with ⟨m, rfl⟩ | ⟨n, rfl⟩ <;> rfl
  next r heq =>
    split
    next e2 heq2 => rfl
    next meta heq2 =>
      rcases h' with h1 | h1 | h1 <;> rw [h1]
      · rw [if_pos rfl]
        exact alphaSecond_not_invalid _ _ _ _ _
      · rw [if_neg (by decide), if_pos rfl]
        exact alphaSecond_not_invalid _ _ _ _ _
      · rw [if_neg (by decide), if_neg (by decide), if_pos rfl]
        exact alphaSecond_not_invalid _ _ _ _ _


/-- Witness for the rcsb-ligand theorem at type sdf in the all-success
world. -/
theorem ligand_ideal_url_no_decompress_witness :
    (_getpdb "ATP" "sdf" "rcsb-ligand" true wDemo).requests.map Request.url =
      [LIGAND_URL "ATP" "sdf"] ∧
    (_getpdb "ATP" "sdf" "rcsb-ligand" true wDemo).gunzips = [] ∧
    ((pyLower "sdf" = "sdf" ∨ pyLower "sdf" = "mol2") ↔
      LIGAND_URL "ATP" "sdf" =
        "https://files.rcsb.org/ligands/download/" ++ pyUpper "ATP"
          ++ "_ideal." ++ pyLower "sdf") ∧
    (_getpdb "ATP" "sdf" "rcsb-ligand" true wDemo).result =
      Except.ok (pySplitLines okResponse.text) :=
  ligand_ideal_url_no_decompress "ATP" "sdf" true wDemo okResponse (by decide) rfl (by decide)

/-- Witness for the alphafold unreachability theorem at type cif. -/
theorem alphafold_invalid_type_unreachable_witness :
    hostTypes "alphafold" = ["cif", "bcif", "pdb"] ∧
    isInvalidFileTypeErr (_getpdb "P00698" "cif" "alphafold" true wDemo).result = false :=
  alphafold_invalid_type_unreachable "P00698" "cif" true wDemo (by decide)
